import Mathlib

-- Formal model of the mammon storage engine (src/lib.rs): an embedded
-- key/value blob store with an append-only blob log (mammon_blobs.bin),
-- a key-to-location catalog persisted with ciborium (mammon.cbor), and a
-- reclaim list of deleted ranges (mammon_empties.cbor).
--
-- Modelling conventions:
--   * Machine integers (the u64 offset and length fields) are modelled as
--     Nat; no claim depends on wraparound and realistic inputs never
--     overflow 64 bits.
--   * A metadata file of CBOR data is modelled as the list of complete
--     serialized documents it holds, in write order.  ciborium::into_writer
--     emits one document at the current cursor of the File handle; the
--     source never seeks the metadata handles, so for a Store made by
--     Store::new the cursor always sits at end of file and each write
--     appends one more document.  ciborium::from_reader consumes the first
--     document from the cursor (position zero right after opening) and
--     fails when the file holds no complete document (empty file, end of
--     input) or holds malformed bytes.
--   * A HashMap<String, Index> is modelled as an association list; insert
--     replaces the binding in place when the key is present (keys stay
--     unique along states reachable from a fresh store), remove filters
--     the binding out.
--   * Filesystem I/O failures are modelled by explicit fault flags where a
--     claim needs them (Store.storeF); the plain operations are the happy
--     path in which every syscall succeeds.
--   * Error values follow the taxonomy of the specification:
--     configuration (create on a non-directory), notInitialized (open on a
--     missing directory), keyNotFound, ioFailure (any file open / read /
--     write / seek failure), corruptMetadata (ciborium deserialization
--     failure).  The source surfaces anyhow errors with exactly this
--     provenance.

inductive StoreError where
  | configuration
  | notInitialized
  | keyNotFound
  | ioFailure
  | corruptMetadata
deriving DecidableEq

-- `Index { offset: u64, length: u64 }`: a byte range of the blob log.
structure Index where
  offset : Nat
  length : Nat
deriving DecidableEq

-- On-disk state of one metadata file: missing from the directory, a
-- sequence of complete serialized documents (the empty file is `valid []`),
-- or bytes that do not parse as a document.
inductive MetaFile (α : Type) where
  | absent
  | valid (docs : List α)
  | malformed
deriving DecidableEq

-- `Store`: the in-memory map and reclaim list plus the contents of the
-- three files owned by the open handles.
structure Store where
  indexes : List (String × Index)
  empties : List Index
  blobFile : List Nat
  dbFile : List (List (String × Index))
  emptyFile : List (List Index)
deriving DecidableEq

-- The directory a Store lives in, as seen by Store::new / Store::open.
structure DirFS where
  dirPresent : Bool
  dirIsDir : Bool
  blobFile : Option (List Nat)
  dbFile : MetaFile (List (String × Index))
  emptyFile : MetaFile (List Index)
deriving DecidableEq

-- HashMap::insert: last write wins, the old binding for the key is
-- replaced in place and nothing else changes.
def insertIndex (k : String) (v : Index) : List (String × Index) → List (String × Index)
  | [] => [(k, v)]
  | (k', v') :: rest => if k' = k then (k, v) :: rest else (k', v') :: insertIndex k v rest

-- HashMap::get.
def lookupIndex (k : String) : List (String × Index) → Option Index
  | [] => none
  | (k', v') :: rest => if k' = k then some v' else lookupIndex k rest

-- HashMap::remove: drops the binding for the key (keys are unique in a
-- HashMap, so filtering out every match is the same removal).
def removeIndex (k : String) (m : List (String × Index)) : List (String × Index) :=
  m.filter fun p => decide (p.1 ≠ k)

-- Number of catalog entries carrying the given key.
def countKey (k : String) (m : List (String × Index)) : Nat :=
  (m.filter fun p => decide (p.1 = k)).length

-- The store returned by Store::new: empty map, empty reclaim list, three
-- freshly truncated files.
def Store.empty : Store :=
  { indexes := [], empties := [], blobFile := [], dbFile := [], emptyFile := [] }

-- Store::store with fault injection: writeOk models the success of the
-- blob-log write_all, persistOk the success of the ciborium write of the
-- catalog.  seek(End(0)) returns the current file length, which becomes
-- the offset of the new entry; on a persist failure the function returns
-- early with the blob log already extended and the map already updated,
-- exactly as the `?` operator leaves `&mut self`.
def Store.storeF (s : Store) (key : String) (val : List Nat)
    (writeOk persistOk : Bool) : Except StoreError Unit × Store :=
  match writeOk with
  | false => (.error .ioFailure, s)
  | true =>
    let s1 : Store :=
      { s with blobFile := s.blobFile ++ val,
               indexes := insertIndex key
                 { offset := s.blobFile.length, length := val.length } s.indexes }
    match persistOk with
    | false => (.error .ioFailure, s1)
    | true => (.ok (), { s1 with dbFile := s1.dbFile ++ [s1.indexes] })

-- Store::store, happy path.
def Store.store (s : Store) (key : String) (val : List Nat) :
    Except StoreError Unit × Store :=
  Store.storeF s key val true true

-- Store::retrieve: look the key up, seek to the offset, read_exact the
-- recorded number of bytes; read_exact fails when the file ends early.
def Store.retrieve (s : Store) (key : String) : Except StoreError (List Nat) :=
  match lookupIndex key s.indexes with
  | none => .error .keyNotFound
  | some idx =>
    if idx.offset + idx.length ≤ s.blobFile.length then
      .ok ((s.blobFile.drop idx.offset).take idx.length)
    else
      .error .ioFailure

-- Store::delete: look the key up (error when absent), push the freed
-- range onto empties, remove the key, then write one catalog document and
-- one empties document at the cursor of each metadata handle.
def Store.delete (s : Store) (key : String) : Except StoreError Unit × Store :=
  match lookupIndex key s.indexes with
  | none => (.error .keyNotFound, s)
  | some idx =>
    let s1 : Store :=
      { s with empties := s.empties ++ [{ offset := idx.offset, length := idx.length }] }
    let s2 : Store := { s1 with indexes := removeIndex key s1.indexes }
    (.ok (), { s2 with dbFile := s2.dbFile ++ [s2.indexes],
                       emptyFile := s2.emptyFile ++ [s2.empties] })

-- Files after Store::new runs create_file three times: each file is
-- created if absent and truncated to zero bytes, nothing is written.
def freshFiles (fs : DirFS) : DirFS :=
  { fs with blobFile := some [], dbFile := .valid [], emptyFile := .valid [] }

-- Store::new: create_dir_all when the directory is missing, bail with a
-- configuration error when the path exists and is not a directory, then
-- create the three truncated files and return the empty store.  The pair
-- carries the resulting directory state (unchanged on the error path).
def Store.new (fs : DirFS) : Except StoreError Store × DirFS :=
  match fs.dirPresent with
  | false => (.ok Store.empty, freshFiles { fs with dirPresent := true, dirIsDir := true })
  | true =>
    match fs.dirIsDir with
    | false => (.error .configuration, fs)
    | true => (.ok Store.empty, freshFiles fs)

-- open_file on the blob log: fails when the file is missing, otherwise
-- yields its bytes.
def openFileBytes (f : Option (List Nat)) : Except StoreError (List Nat) :=
  match f with
  | none => .error .ioFailure
  | some b => .ok b

-- open_file on a metadata file: only a missing file makes the open itself
-- fail; empty or malformed contents open fine.
def openMeta {α : Type} (f : MetaFile α) : Except StoreError Unit :=
  match f with
  | .absent => .error .ioFailure
  | _ => .ok ()

-- ciborium::from_reader at cursor zero: reads the first complete document;
-- an empty file (no document) or malformed bytes fail deserialization.
def fromReader {α : Type} (f : MetaFile α) : Except StoreError α :=
  match f with
  | .absent => .error .ioFailure
  | .malformed => .error .corruptMetadata
  | .valid [] => .error .corruptMetadata
  | .valid (d :: _) => .ok d

def MetaFile.docs {α : Type} : MetaFile α → List α
  | .valid ds => ds
  | _ => []

-- Store::open: bail when the directory is missing, open the three files
-- in source order (blob log, empties, catalog), then eagerly deserialize
-- the catalog and the empties, in that order.
def Store.openStore (fs : DirFS) : Except StoreError Store :=
  match fs.dirPresent with
  | false => .error .notInitialized
  | true => do
    let blob ← openFileBytes fs.blobFile
    let _ ← openMeta fs.emptyFile
    let _ ← openMeta fs.dbFile
    let indexes ← fromReader fs.dbFile
    let empties ← fromReader fs.emptyFile
    .ok { indexes := indexes, empties := empties, blobFile := blob,
          dbFile := fs.dbFile.docs, emptyFile := fs.emptyFile.docs }

-- Dropping the Store flushes the handles; the directory afterwards holds
-- exactly the file contents the Store wrote.
def Store.toDir (s : Store) : DirFS :=
  { dirPresent := true, dirIsDir := true, blobFile := some s.blobFile,
    dbFile := .valid s.dbFile, emptyFile := .valid s.emptyFile }

-- A directory that does not exist yet.
def fsFresh : DirFS :=
  { dirPresent := false, dirIsDir := false, blobFile := none,
    dbFile := .absent, emptyFile := .absent }

-- The directory right after Store::new ran on a fresh path.
def fsInit : DirFS :=
  { dirPresent := true, dirIsDir := true, blobFile := some [],
    dbFile := .valid [], emptyFile := .valid [] }

-- ### Helper lemmas about the map operations

theorem lookupIndex_insertIndex_self (k : String) (v : Index) (m : List (String × Index)) :
    lookupIndex k (insertIndex k v m) = some v := by
  induction m with
  | nil => simp [insertIndex, lookupIndex]
  | cons p rest ih =>
    obtain ⟨k', v'⟩ := p
    by_cases h : k' = k
    · simp [insertIndex, lookupIndex, h]
    · simp [insertIndex, lookupIndex, h, ih]

theorem lookupIndex_removeIndex_self (k : String) (m : List (String × Index)) :
    lookupIndex k (removeIndex k m) = none := by
  induction m with
  | nil => simp [removeIndex, lookupIndex]
  | cons p rest ih =>
    obtain ⟨k', v'⟩ := p
    by_cases h : k' = k
    · simpa [removeIndex, List.filter, h] using ih
    · simpa [removeIndex, List.filter, h, lookupIndex] using ih

theorem mem_insertIndex (k : String) (v : Index) (m : List (String × Index))
    (p : String × Index) (hp : p ∈ insertIndex k v m) : p = (k, v) ∨ p ∈ m := by
  induction m with
  | nil => simpa [insertIndex] using hp
  | cons q rest ih =>
    obtain ⟨k', v'⟩ := q
    by_cases h : k' = k
    · rw [insertIndex, if_pos h] at hp
      rcases List.mem_cons.mp hp with h1 | h2
      · exact Or.inl h1
      · exact Or.inr (List.mem_cons_of_mem _ h2)
    · rw [insertIndex, if_neg h] at hp
      rcases List.mem_cons.mp hp with h1 | h2
      · exact Or.inr (by simp [h1])
      · rcases ih h2 with h3 | h4
        · exact Or.inl h3
        · exact Or.inr (List.mem_cons_of_mem _ h4)

theorem countKey_cons (k k' : String) (v' : Index) (m : List (String × Index)) :
    countKey k ((k', v') :: m) =
      if k' = k then countKey k m + 1 else countKey k m := by
  by_cases h : k' = k <;> simp [countKey, List.filter_cons, h]

theorem countKey_insertIndex_self (k : String) (v : Index) (m : List (String × Index)) :
    countKey k (insertIndex k v m) = if countKey k m = 0 then 1 else countKey k m := by
  induction m with
  | nil => simp [insertIndex, countKey]
  | cons p rest ih =>
    obtain ⟨k', v'⟩ := p
    by_cases h : k' = k
    · rw [insertIndex, if_pos h, countKey_cons, if_pos rfl, countKey_cons, if_pos h]
      simp
    · rw [insertIndex, if_neg h, countKey_cons, if_neg h, ih, countKey_cons, if_neg h]

-- The full effect of a successful Store::store on the state.
theorem store_result (s : Store) (k : String) (v : List Nat) :
    Store.store s k v =
      (.ok (), { indexes := insertIndex k { offset := s.blobFile.length, length := v.length } s.indexes,
                 empties := s.empties,
                 blobFile := s.blobFile ++ v,
                 dbFile := s.dbFile ++ [insertIndex k { offset := s.blobFile.length, length := v.length } s.indexes],
                 emptyFile := s.emptyFile }) := rfl

-- Reading back the key just stored returns exactly the bytes stored.
theorem retrieve_after_store (s : Store) (k : String) (v : List Nat) :
    Store.retrieve (Store.store s k v).2 k = .ok v := by
  rw [store_result]
  rw [Store.retrieve]
  rw [lookupIndex_insertIndex_self]
  simp [List.length_append, List.drop_left, List.take_length]

-- The full effect of a successful Store::delete on the state.
theorem delete_result_of_lookup (s : Store) (k : String) (idx : Index)
    (h : lookupIndex k s.indexes = some idx) :
    Store.delete s k =
      (.ok (), { indexes := removeIndex k s.indexes,
                 empties := s.empties ++ [{ offset := idx.offset, length := idx.length }],
                 blobFile := s.blobFile,
                 dbFile := s.dbFile ++ [removeIndex k s.indexes],
                 emptyFile := s.emptyFile ++ [s.empties ++ [{ offset := idx.offset, length := idx.length }]] }) := by
  rw [Store.delete, h]

-- ### Claim theorems

/-- Claim C1: for every store state, every key and every byte sequence of
any length including zero, a successful store of the pair followed by a
retrieve of the key returns exactly the stored bytes, byte for byte.
(The happy-path store always succeeds, so this covers every Store produced
by create and mutated further.) -/
theorem store_retrieve_roundtrip (s : Store) (k : String) (v : List Nat) :
    (Store.store s k v).1 = .ok () ∧
    Store.retrieve (Store.store s k v).2 k = .ok v :=
  ⟨rfl, retrieve_after_store s k v⟩

/-- Claim C9: when the blob-log append succeeds but the subsequent catalog
persist fails, store returns an error, yet the in-memory map already holds
the new entry for the key, the blob log keeps the appended bytes (no
rollback), and the on-disk catalog file is left unchanged. -/
theorem store_persist_failure_torn (s : Store) (k : String) (v : List Nat) :
    (Store.storeF s k v true false).1 = .error .ioFailure ∧
    lookupIndex k (Store.storeF s k v true false).2.indexes
      = some { offset := s.blobFile.length, length := v.length } ∧
    (Store.storeF s k v true false).2.blobFile = s.blobFile ++ v ∧
    (Store.storeF s k v true false).2.dbFile = s.dbFile :=
  ⟨rfl,
   lookupIndex_insertIndex_self k { offset := s.blobFile.length, length := v.length } s.indexes,
   rfl, rfl⟩

/-- Claim C5: after storing a key, the first delete of it succeeds, moves
the freed location (offset and length of the stored bytes) onto the end of
the reclaim list and leaves the blob-log bytes in place; a retrieve of the
key then fails with key-not-found, and a second delete fails with
key-not-found as well. -/
theorem delete_then_miss (s : Store) (k : String) (v : List Nat) :
    (Store.delete (Store.store s k v).2 k).1 = .ok () ∧
    (Store.delete (Store.store s k v).2 k).2.empties
      = s.empties ++ [{ offset := s.blobFile.length, length := v.length }] ∧
    (Store.delete (Store.store s k v).2 k).2.blobFile = (Store.store s k v).2.blobFile ∧
    Store.retrieve (Store.delete (Store.store s k v).2 k).2 k = .error .keyNotFound ∧
    (Store.delete (Store.delete (Store.store s k v).2 k).2 k).1 = .error .keyNotFound := by
  have hl : lookupIndex k (Store.store s k v).2.indexes
      = some { offset := s.blobFile.length, length := v.length } := by
    rw [store_result]
    exact lookupIndex_insertIndex_self k _ s.indexes
  have hd := delete_result_of_lookup (Store.store s k v).2 k _ hl
  rw [hd]
  refine ⟨rfl, ?_, rfl, ?_, ?_⟩
  · rw [store_result]
  · rw [Store.retrieve]
    rw [lookupIndex_removeIndex_self]
  · rw [Store.delete]
    rw [lookupIndex_removeIndex_self]

/-- Claim C2 (code bug): create on a fresh directory followed by one store
does succeed, but reopening the directory then fails with a
deserialization error — nothing ever wrote a document to the empties
metadata file, and ciborium cannot read a document from an empty file —
so the claimed retrieve of [1,2,3] after reopen is never reached. -/
theorem persistence_reopen_fails :
    Store.new fsFresh = (.ok Store.empty, fsInit) ∧
    (Store.store Store.empty "a" [1, 2, 3]).1 = .ok () ∧
    Store.openStore (Store.toDir (Store.store Store.empty "a" [1, 2, 3]).2)
      = .error .corruptMetadata :=
  ⟨rfl, rfl, rfl⟩

/-- Claim C3 (code bug): each ciborium write lands at the current cursor of
the metadata handle (end of file) without rewind or truncation, so after
two stores the catalog metadata file holds two concatenated documents, not
one full-replacement image; the empties metadata file likewise holds two
documents after two deletes. -/
theorem persist_appends_documents :
    (Store.store (Store.store Store.empty "a" [1]).2 "b" [2]).2.dbFile
      = [[("a", { offset := 0, length := 1 })],
         [("a", { offset := 0, length := 1 }), ("b", { offset := 1, length := 1 })]] ∧
    (Store.store (Store.store Store.empty "a" [1]).2 "b" [2]).2.dbFile.length ≠ 1 ∧
    (Store.delete (Store.delete
        (Store.store (Store.store Store.empty "a" [1]).2 "b" [2]).2 "a").2 "b").2.emptyFile
      = [[{ offset := 0, length := 1 }],
         [{ offset := 0, length := 1 }, { offset := 1, length := 1 }]] ∧
    (Store.delete (Store.delete
        (Store.store (Store.store Store.empty "a" [1]).2 "b" [2]).2 "a").2 "b").2.emptyFile.length
      ≠ 1 := by
  refine ⟨?_, ?_, ?_, ?_⟩ <;> decide

/-- Claim C10: create writes zero bytes to the three files it creates, so
immediately after create all three files are empty; open on that directory
fails with a deserialization error (before any store the empty catalog
file already fails to deserialize, and after a store but before any delete
the catalog document reads back fine while the still-empty empties file
fails). -/
theorem create_files_empty_open_fails :
    Store.new fsFresh = (.ok Store.empty, fsInit) ∧
    fsInit.blobFile = some [] ∧
    fsInit.dbFile = .valid [] ∧
    fsInit.emptyFile = .valid [] ∧
    Store.openStore fsInit = .error .corruptMetadata ∧
    fromReader fsInit.dbFile = .error .corruptMetadata ∧
    fromReader (Store.toDir (Store.store Store.empty "a" [7]).2).dbFile
      = .ok [("a", { offset := 0, length := 1 })] ∧
    fromReader (Store.toDir (Store.store Store.empty "a" [7]).2).emptyFile
      = .error .corruptMetadata ∧
    Store.openStore (Store.toDir (Store.store Store.empty "a" [7]).2)
      = .error .corruptMetadata :=
  ⟨rfl, rfl, rfl, rfl, rfl, rfl, rfl, rfl, rfl⟩

/-- Claim C6 counterexample: with the directory present, the blob log
present and a well-formed empties file, a missing catalog metadata file
makes open fail with the I/O error of the failed file open, not with a
deserialization error as the claim states. -/
theorem open_missing_metadata_io_error :
    Store.openStore { dirPresent := true, dirIsDir := true, blobFile := some [],
                      dbFile := .absent, emptyFile := .valid [[]] } = .error .ioFailure ∧
    Store.openStore { dirPresent := true, dirIsDir := true, blobFile := some [],
                      dbFile := .absent, emptyFile := .valid [[]] }
      ≠ .error .corruptMetadata := by
  refine ⟨rfl, ?_⟩
  intro h
  injection h with h2
  cases h2

/-- Claim C6 as amended: open fails when the directory does not exist; a
malformed or empty metadata file (catalog or empties) fails with a
deserialization error; a missing metadata file fails with an I/O error
from opening the file instead. -/
theorem open_error_taxonomy (b1 b2 : Bool) (bf : Option (List Nat))
    (blob : List Nat) (dbf : MetaFile (List (String × Index)))
    (ef : MetaFile (List Index)) (d : List (String × Index))
    (ds : List (List (String × Index))) (es : List (List Index)) :
    Store.openStore { dirPresent := false, dirIsDir := b2, blobFile := bf,
                      dbFile := dbf, emptyFile := ef } = .error .notInitialized ∧
    Store.openStore { dirPresent := true, dirIsDir := b1, blobFile := some blob,
                      dbFile := .malformed, emptyFile := .valid es }
      = .error .corruptMetadata ∧
    Store.openStore { dirPresent := true, dirIsDir := b1, blobFile := some blob,
                      dbFile := .valid [], emptyFile := .valid es }
      = .error .corruptMetadata ∧
    Store.openStore { dirPresent := true, dirIsDir := b1, blobFile := some blob,
                      dbFile := .valid (d :: ds), emptyFile := .malformed }
      = .error .corruptMetadata ∧
    Store.openStore { dirPresent := true, dirIsDir := b1, blobFile := some blob,
                      dbFile := .valid (d :: ds), emptyFile := .valid [] }
      = .error .corruptMetadata ∧
    Store.openStore { dirPresent := true, dirIsDir := b1, blobFile := some blob,
                      dbFile := .absent, emptyFile := .valid es } = .error .ioFailure ∧
    Store.openStore { dirPresent := true, dirIsDir := b1, blobFile := some blob,
                      dbFile := dbf, emptyFile := .absent } = .error .ioFailure :=
  ⟨rfl, rfl, rfl, rfl, rfl, rfl, rfl⟩

/-- Claim C7: create on an existing non-directory path fails with the
configuration error and changes nothing in the filesystem; on a missing
path it creates the directory tree and three fresh truncated empty files;
on an existing directory it truncates the three files; in both success
cases the returned store has an empty catalog and an empty reclaim list. -/
theorem create_semantics (bf : Option (List Nat))
    (dbf : MetaFile (List (String × Index))) (ef : MetaFile (List Index)) (b : Bool) :
    Store.new { dirPresent := true, dirIsDir := false, blobFile := bf,
                dbFile := dbf, emptyFile := ef }
      = (.error .configuration,
         { dirPresent := true, dirIsDir := false, blobFile := bf,
           dbFile := dbf, emptyFile := ef }) ∧
    Store.new { dirPresent := false, dirIsDir := b, blobFile := bf,
                dbFile := dbf, emptyFile := ef } = (.ok Store.empty, fsInit) ∧
    Store.new { dirPresent := true, dirIsDir := true, blobFile := bf,
                dbFile := dbf, emptyFile := ef } = (.ok Store.empty, fsInit) ∧
    Store.empty.indexes = [] ∧
    Store.empty.empties = [] :=
  ⟨rfl, rfl, rfl, rfl, rfl⟩

/-- Claim C4: storing the same key twice keeps the last value retrievable,
leaves exactly one catalog entry for the key, grows the blob log by the
lengths of both values, and does not add the superseded location to the
reclaim list. -/
theorem overwrite_semantics (s : Store) (k : String) (v1 v2 : List Nat)
    (h : countKey k s.indexes ≤ 1) :
    Store.retrieve (Store.store (Store.store s k v1).2 k v2).2 k = .ok v2 ∧
    countKey k (Store.store (Store.store s k v1).2 k v2).2.indexes = 1 ∧
    (Store.store (Store.store s k v1).2 k v2).2.blobFile.length
      = s.blobFile.length + v1.length + v2.length ∧
    (Store.store (Store.store s k v1).2 k v2).2.empties = s.empties := by
  refine ⟨retrieve_after_store _ _ _, ?_, ?_, rfl⟩
  · have e1 : (Store.store (Store.store s k v1).2 k v2).2.indexes
        = insertIndex k { offset := (s.blobFile ++ v1).length, length := v2.length }
            (insertIndex k { offset := s.blobFile.length, length := v1.length } s.indexes) := rfl
    rw [e1, countKey_insertIndex_self, countKey_insertIndex_self]
    rcases Nat.le_one_iff_eq_zero_or_eq_one.mp h with h0 | h1
    · simp [h0]
    · simp [h1]
  · have e2 : (Store.store (Store.store s k v1).2 k v2).2.blobFile
        = (s.blobFile ++ v1) ++ v2 := rfl
    rw [e2]
    simp [List.length_append]
    omega

/-- Witness for C4 at a concrete store, key and pair of values. -/
theorem overwrite_semantics_witness :
    Store.retrieve (Store.store (Store.store Store.empty "k" [1]).2 "k" [2, 3]).2 "k"
      = .ok [2, 3] ∧
    countKey "k" (Store.store (Store.store Store.empty "k" [1]).2 "k" [2, 3]).2.indexes = 1 ∧
    (Store.store (Store.store Store.empty "k" [1]).2 "k" [2, 3]).2.blobFile.length
      = Store.empty.blobFile.length + [1].length + [2, 3].length ∧
    (Store.store (Store.store Store.empty "k" [1]).2 "k" [2, 3]).2.empties
      = Store.empty.empties :=
  overwrite_semantics Store.empty "k" [1] [2, 3] (by decide)

-- ### Catalog range invariant (claim C8)

-- Two byte ranges of the blob log intersect.
def Index.overlaps (a b : Index) : Prop :=
  a.offset < b.offset + b.length ∧ b.offset < a.offset + a.length

-- Every catalog entry lies inside the current blob log.
def Store.entriesBounded (s : Store) : Prop :=
  ∀ p ∈ s.indexes, p.2.offset + p.2.length ≤ s.blobFile.length

-- No two live catalog entries have intersecting ranges.
def Store.noOverlap (s : Store) : Prop :=
  s.indexes.Pairwise fun p q => ¬ Index.overlaps p.2 q.2

-- States reachable from a freshly created store by successful calls.
-- retrieve does not change the state, and a failed delete returns the
-- state unchanged, so these two constructors cover every reachable state.
inductive Store.Reachable : Store → Prop where
  | created : Store.Reachable Store.empty
  | stored (k : String) (v : List Nat) {s : Store} :
      Store.Reachable s → Store.Reachable (Store.store s k v).2
  | deleted (k : String) {s : Store} :
      Store.Reachable s → Store.Reachable (Store.delete s k).2

theorem insertIndex_pairwise (k : String) (w : Index) (m : List (String × Index)) (B : Nat)
    (hb : ∀ p ∈ m, p.2.offset + p.2.length ≤ B)
    (hw : B ≤ w.offset)
    (hp : m.Pairwise fun p q => ¬ Index.overlaps p.2 q.2) :
    (insertIndex k w m).Pairwise fun p q => ¬ Index.overlaps p.2 q.2 := by
  induction m with
  | nil => simp [insertIndex]
  | cons q rest ih =>
    obtain ⟨k', v'⟩ := q
    rw [List.pairwise_cons] at hp
    obtain ⟨hhead, htail⟩ := hp
    by_cases h : k' = k
    · rw [insertIndex, if_pos h, List.pairwise_cons]
      refine ⟨?_, htail⟩
      intro q hq
      have hqb := hb q (List.mem_cons_of_mem _ hq)
      intro hcon
      simp only [Index.overlaps] at hcon
      omega
    · rw [insertIndex, if_neg h, List.pairwise_cons]
      constructor
      · intro q hq
        rcases mem_insertIndex k w rest q hq with rfl | hm
        · have hvb := hb (k', v') (List.mem_cons_self _ _)
          intro hcon
          simp only [Index.overlaps] at hcon hvb
          omega
        · exact hhead q hm
      · exact ih (fun p hp => hb p (List.mem_cons_of_mem _ hp)) htail

theorem entriesBounded_store (s : Store) (k : String) (v : List Nat)
    (h : s.entriesBounded) : (Store.store s k v).2.entriesBounded := by
  intro p hp
  rcases mem_insertIndex k { offset := s.blobFile.length, length := v.length } s.indexes p hp
    with rfl | hm
  · show s.blobFile.length + v.length ≤ (s.blobFile ++ v).length
    simp [List.length_append]
  · have hb := h p hm
    show p.2.offset + p.2.length ≤ (s.blobFile ++ v).length
    simp only [List.length_append]
    omega

theorem noOverlap_store (s : Store) (k : String) (v : List Nat)
    (hb : s.entriesBounded) (h : s.noOverlap) : (Store.store s k v).2.noOverlap :=
  insertIndex_pairwise k { offset := s.blobFile.length, length := v.length }
    s.indexes s.blobFile.length hb (Nat.le_refl _) h

theorem entriesBounded_delete (s : Store) (k : String)
    (h : s.entriesBounded) : (Store.delete s k).2.entriesBounded := by
  cases hl : lookupIndex k s.indexes with
  | none =>
    have e : (Store.delete s k).2 = s := by rw [Store.delete, hl]
    rw [e]
    exact h
  | some idx =>
    rw [delete_result_of_lookup s k idx hl]
    intro p hp
    exact h p (List.mem_of_mem_filter hp)

theorem noOverlap_delete (s : Store) (k : String)
    (h : s.noOverlap) : (Store.delete s k).2.noOverlap := by
  cases hl : lookupIndex k s.indexes with
  | none =>
    have e : (Store.delete s k).2 = s := by rw [Store.delete, hl]
    rw [e]
    exact h
  | some idx =>
    rw [delete_result_of_lookup s k idx hl]
    exact h.filter _

/-- Claim C8: in every state reachable from a freshly created store by
successful store, retrieve and delete calls, every catalog entry satisfies
offset plus length at most the current blob-log size, and the byte ranges
of two distinct live entries never overlap. -/
theorem catalog_ranges_invariant (s : Store) (h : Store.Reachable s) :
    s.entriesBounded ∧ s.noOverlap := by
  induction h with
  | created =>
    constructor
    · intro p hp
      simp [Store.empty] at hp
    · exact List.Pairwise.nil
  | stored k v hr ih =>
    exact ⟨entriesBounded_store _ k v ih.1, noOverlap_store _ k v ih.1 ih.2⟩
  | deleted k hr ih =>
    exact ⟨entriesBounded_delete _ k ih.1, noOverlap_delete _ k ih.2⟩

/-- Witness for C8 at the state reached by one store call on a fresh store. -/
theorem catalog_ranges_invariant_witness :
    (Store.store Store.empty "a" [5, 6]).2.entriesBounded ∧
    (Store.store Store.empty "a" [5, 6]).2.noOverlap :=
  catalog_ranges_invariant (Store.store Store.empty "a" [5, 6]).2
    (Store.Reachable.stored "a" [5, 6] Store.Reachable.created)
